import Mathlib

/-!
Verification development for the flashcard learning-game engine
(multiplication-table and vocabulary apps sharing a common scoring,
selection and progress library).

Conventions of the embedding:
* JavaScript numbers holding integer game data (levels, counts, points)
  are embedded as `Nat` / `Int`; time values in seconds are embedded as `ℚ`
  (all operations the engine performs on them — comparison, min, max,
  assignment — are exact).
* JavaScript strings are embedded as `String` where they are only stored,
  and as `List Char` where the code computes on their characters
  (splitting, edit distance).
* Fallible parses return `Option`; `none` plays the role of JS `NaN` /
  `undefined` in numeric positions (both compare unequal to every number,
  which is the only way the code observes them).
-/

/-! ## Shared constants

`ROUND_SIZE`, `LEVENSHTEIN_THRESHOLD` and `INITIAL_CARDS` are copied from
the vocabulary app's constants module.  The bound constants `MIN_LEVEL`,
`MAX_LEVEL`, `MIN_TIME`, `MAX_TIME`, `DEFAULT_TIME` and
`SPEED_BONUS_POINTS` are re-exported by that module from the shared
package whose source is not part of this snapshot; their values are
modelled from the spec (levels bounded [1,5], times bounded [0.1,60],
default time 60, speed bonus 5 as fixed by the worked example
5 + (6-3) + 5 = 13). -/

/-- Modelled from the spec: lower bound of the difficulty ladder
(`level ∈ [1,5]`); the constant itself lives in the shared package, which
is missing from this snapshot. -/
def MIN_LEVEL : Nat := 1

/-- Modelled from the spec: upper bound of the difficulty ladder. -/
def MAX_LEVEL : Nat := 5

/-- Modelled from the spec: lower bound 0.1 s for recorded times; written
as an explicit reduced fraction 1/10. -/
def MIN_TIME : ℚ := ⟨1, 10, by decide, by decide⟩

/-- Modelled from the spec: upper bound 60 s for recorded times. -/
def MAX_TIME : ℚ := 60

/-- Modelled from the spec: default time a fresh card starts with. -/
def DEFAULT_TIME : ℚ := 60

/-- Modelled from the spec: fixed speed-bonus increment; its value 5 is
forced by the spec's worked example `5 + (6-3) + 5 = 13`. -/
def SPEED_BONUS_POINTS : Int := 5

/-- Number of cards per round (vocabulary app constants module). -/
def ROUND_SIZE : Nat := 10

/-- Levenshtein distance threshold for accepting close answers
(vocabulary app constants module): up to 2 character changes tolerated. -/
def LEVENSHTEIN_THRESHOLD : Nat := 2

/-! ## Card data model (vocabulary app) -/

/-- A vocabulary card: English prompt, German answer, difficulty level and
the two recorded response times (blind mode and typing mode), as in the
vocabulary app's `Card` type. -/
structure Card where
  en : String
  de : String
  level : Nat
  time_blind : ℚ
  time_typing : ℚ
deriving DecidableEq

/-- The seeded card set of the vocabulary app, copied verbatim from its
constants module. -/
def INITIAL_CARDS : List Card :=
  [ { en := "Where", de := "Wo", level := 1, time_blind := 60, time_typing := 60 },
    { en := "Who", de := "Wer", level := 1, time_blind := 60, time_typing := 60 },
    { en := "What", de := "Was", level := 2, time_blind := 60, time_typing := 60 },
    { en := "Why", de := "Warum", level := 2, time_blind := 60, time_typing := 60 },
    { en := "When", de := "Wann", level := 3, time_blind := 60, time_typing := 60 },
    { en := "How", de := "Wie", level := 3, time_blind := 60, time_typing := 60 },
    { en := "Which", de := "Welche/r/s", level := 4, time_blind := 60, time_typing := 60 },
    { en := "From where", de := "Woher", level := 4, time_blind := 60, time_typing := 60 },
    { en := "To where", de := "Wohin", level := 5, time_blind := 60, time_typing := 60 },
    { en := "How much", de := "Wie viel", level := 5, time_blind := 60, time_typing := 60 } ]

/-! ## Progress updater -/

/-- The progress part of a card that the updater operates on: difficulty
level and recorded time.  Both app variants share this shape. -/
structure PCard where
  level : Nat
  time : ℚ
deriving DecidableEq

/-- Modelled from the spec: the progress updater `apply` (its source lives
in the shared package, missing from this snapshot).  Correct answer:
`level = min (level+1) 5`, `time = elapsedTime`.  Incorrect answer:
`level = max (level-1) 1`, time unchanged. -/
def applyProgress (c : PCard) (correct : Bool) (elapsed : ℚ) : PCard :=
  if correct then
    { level := min (c.level + 1) MAX_LEVEL, time := elapsed }
  else
    { level := max (c.level - 1) MIN_LEVEL, time := c.time }

/-- Iterated progress updates: fold `applyProgress` over a list of
(correct, elapsedTime) results. -/
def applyAll (c : PCard) (rs : List (Bool × ℚ)) : PCard :=
  rs.foldl (fun a r => applyProgress a r.1 r.2) c

/-! ## Scoring engine -/

/-- Modelled from the spec: per-answer scoring (source in the shared
package, missing from this snapshot).  Correct answers score
`base + (6 - level) + speedBonus` where the speed bonus is awarded when
the elapsed time improves on the card's previously recorded time;
incorrect answers score 0. -/
def scoreAnswer (correct : Bool) (base level : Nat) (priorTime elapsed : ℚ) : Int :=
  if correct then
    (base : Int) + (6 - (level : Int)) +
      (if elapsed < priorTime then SPEED_BONUS_POINTS else 0)
  else 0

/-! ## Selector (numeric app) -/

/-- A numeric-app card: an operand pair with its progress. -/
structure NumCard where
  x : Nat
  y : Nat
  level : Nat
  time : ℚ
deriving DecidableEq

/-- Modelled from the spec: the explicit-topic-set filtering step of the
Selector (source in the numeric app, missing from this snapshot).  A card
survives when its first or second operand is a member of the topic set. -/
def filterByTopics (pool : List NumCard) (t : List Nat) : List NumCard :=
  pool.filter (fun c => decide (c.x ∈ t ∨ c.y ∈ t))

/-- Focus strategy selecting the weighting of the sampler. -/
inductive Focus where
  | weak
  | strong
  | slow
deriving DecidableEq

/-- Modelled from the spec: sampling weight of a card under a focus
strategy — `weak` weights inversely to level, `strong` proportionally to
level, `slow` proportionally to recorded time. -/
def focusWeight (f : Focus) (c : NumCard) : ℚ :=
  match f with
  | Focus.weak => ((MAX_LEVEL + 1 - c.level : Nat) : ℚ)
  | Focus.strong => (c.level : ℚ)
  | Focus.slow => c.time

/-- Modelled from the spec: weighted sampling without replacement.  The
randomness of the weighted draw is abstracted as an oracle `pick` that, at
each step, is shown the weights of the remaining candidates and returns
the index of the chosen card (taken modulo the number of candidates); the
chosen card is removed and drawing continues until `limit` cards are drawn
or no candidates remain. -/
def drawCards (pick : List ℚ → Nat → Nat) (f : Focus) :
    Nat → List NumCard → List NumCard
  | 0, _ => []
  | _ + 1, [] => []
  | n + 1, c :: cs =>
      let l := c :: cs
      let i := pick (l.map (focusWeight f)) n % l.length
      l.getD i c :: drawCards pick f n (l.eraseIdx i)

/-- Modelled from the spec: `select(pool, filter, focus, limit=10)` —
filter the pool by the explicit topic set, then draw up to `ROUND_SIZE`
cards by weighted sampling without replacement. -/
def selectCards (pick : List ℚ → Nat → Nat) (f : Focus)
    (pool : List NumCard) (t : List Nat) : List NumCard :=
  drawCards pick f ROUND_SIZE (filterByTopics pool t)

/-! ## Card store initialization (vocabulary app) -/

/-- Modelled from the spec: first-time initialization of the vocabulary
topic (source in the app's store, missing from this snapshot).  When the
store already holds cards for the topic and no force flag is given, the
stored cards are kept unchanged; otherwise the seeded `INITIAL_CARDS` are
installed. -/
def initializeCards (stored : Option (List Card)) (force : Bool) : List Card :=
  if force then INITIAL_CARDS
  else
    match stored with
    | some cs => cs
    | none => INITIAL_CARDS

/-! ## Answer evaluator (text variant) -/

/-- Fuel-indexed Levenshtein distance on character lists; with fuel at
least the sum of the two lengths it computes the standard edit distance
(the fuel-exhausted value coincides with the distance whenever one list is
empty, which is the only way the fuel below can run out). -/
def levAux : Nat → List Char → List Char → Nat
  | 0, xs, ys => xs.length + ys.length
  | _ + 1, [], ys => ys.length
  | _ + 1, x :: xs, [] => (x :: xs).length
  | f + 1, x :: xs, y :: ys =>
      if x = y then levAux f xs ys
      else 1 + min (levAux f xs ys) (min (levAux f (x :: xs) ys) (levAux f xs (y :: ys)))

/-- Modelled from the spec: Levenshtein edit distance between two
character lists (the distance function lives in the shared package,
missing from this snapshot). -/
def levDist (xs ys : List Char) : Nat :=
  levAux (xs.length + ys.length) xs ys

/-- Modelled from the spec: normalization applied identically to both
sides before comparison — trimming surrounding whitespace and case
folding. -/
def normalizeAnswer (s : List Char) : List Char :=
  (((s.dropWhile Char.isWhitespace).reverse.dropWhile Char.isWhitespace).reverse).map
    Char.toLower

/-- Result of evaluating a submitted text answer. -/
structure EvalResult where
  correct : Bool
  distance : Nat
deriving DecidableEq

/-- Modelled from the spec: the text-variant answer evaluator.  An exact
match of the normalized strings is correct with distance 0; otherwise the
Levenshtein distance between the normalized strings is computed and the
answer is correct exactly when it is at most `LEVENSHTEIN_THRESHOLD`, the
(non-zero) distance being recorded for UI feedback. -/
def evaluateText (expected submitted : List Char) : EvalResult :=
  let e := normalizeAnswer expected
  let s := normalizeAnswer submitted
  if s = e then { correct := true, distance := 0 }
  else
    let d := levDist s e
    { correct := d ≤ LEVENSHTEIN_THRESHOLD, distance := d }

/-- Modelled from the spec: evaluation of a submitted answer against a
card, returned together with the card, making explicit that evaluation
does not touch the card's state (the evaluator is a pure function of the
card and the submission). -/
def evaluateCard (c : Card) (submitted : String) : EvalResult × Card :=
  (evaluateText c.de.data submitted.data, c)

/-! ## Question display formatting (FlashCard component, numeric app)

Embedding of the `formatDisplayQuestion` helper from the component test
suite, which mirrors the `displayQuestion` computed property: the card
question is a string of the shape XxY, the selection is either an array
of numbers, the squared-mode sentinel, or undefined. -/

/-- The selection type of the numeric app: an array of selected numbers or
the squared-mode sentinel (the character pair x-squared in the source). -/
inductive Selection where
  | nums : List Nat → Selection
  | squared : Selection
deriving DecidableEq

/-- Decimal digit character for a value below 10. -/
def digitChar (n : Nat) : Char := Char.ofNat (48 + n)

/-- Fuel-indexed decimal representation of a natural number, most
significant digit first; with positive fuel at least the number of digits
it is the full decimal numeral. -/
def natReprAux : Nat → Nat → List Char
  | 0, _ => []
  | f + 1, n =>
      if n < 10 then [digitChar n]
      else natReprAux f (n / 10) ++ [digitChar (n % 10)]

/-- Decimal representation of a natural number as a character list —
the embedding of JS number-to-string conversion used by template
interpolation. -/
def natRepr (n : Nat) : List Char := natReprAux (n + 1) n

/-- Value of a decimal digit character, or `none` for any other
character. -/
def charDigit (c : Char) : Option Nat :=
  if 48 ≤ c.toNat ∧ c.toNat ≤ 57 then some (c.toNat - 48) else none

/-- Left-to-right accumulating decimal parse; fails on the first
non-digit character. -/
def parseNatAux : Nat → List Char → Option Nat
  | acc, [] => some acc
  | acc, c :: cs =>
      match charDigit c with
      | some d => parseNatAux (10 * acc + d) cs
      | none => none

/-- The embedding of the JS `Number()` conversion as used on the split
question parts: the empty string converts to 0, a digit string to its
value, and anything else to NaN, embedded as `none`. -/
def jsNumber (s : List Char) : Option Nat := parseNatAux 0 s

/-- The embedding of JS `String.prototype.split` with a single-character
separator. -/
def splitOnChar (sep : Char) : List Char → List (List Char)
  | [] => [[]]
  | c :: cs =>
      let r := splitOnChar sep cs
      if c = sep then [] :: r
      else
        match r with
        | [] => [[c]]
        | h :: t => (c :: h) :: t

/-- The embedding of JS `String.prototype.replace` with single-character
pattern and replacement: replace the first occurrence only. -/
def replaceFirst (a b : Char) : List Char → List Char
  | [] => []
  | c :: cs => if c = a then b :: cs else c :: replaceFirst a b cs

/-- Rendering of a split-and-parsed operand in template interpolation:
a number renders as its numeral, the NaN/undefined case as a non-numeral
placeholder (never reached on well-formed questions). -/
def optNumRepr : Option Nat → List Char
  | some m => natRepr m
  | none => ['N', 'a', 'N']

/-- Embedding of `formatDisplayQuestion` from the FlashCard test suite:
when the selection is a one-element number array whose number matches one
of the two operands of the question, the question is rearranged so the
selected number comes last, joined by the multiplication sign; in every
other case the first x of the question is replaced by the multiplication
sign. -/
def formatDisplayQuestion (q : List Char) (sel : Option Selection) : List Char :=
  match sel with
  | some (Selection.nums [n]) =>
      let parts := (splitOnChar 'x' q).map jsNumber
      let x := parts.getD 0 none
      let y := parts.getD 1 none
      if x = some n ∨ y = some n then
        (if x = some n then optNumRepr y else optNumRepr x) ++ '×' :: natRepr n
      else replaceFirst 'x' '×' q
  | _ => replaceFirst 'x' '×' q

/-! ## Helper lemmas -/

/-- With fuel at least twice the length, the edit distance of a list with
itself is 0. -/
lemma levAux_self : ∀ (xs : List Char) (f : Nat), 2 * xs.length ≤ f → levAux f xs xs = 0 := by
  intro xs
  induction xs with
  | nil => intro f _; cases f <;> rfl
  | cons x xs ih =>
      intro f hf
      match f, hf with
      | g + 1, hf =>
          show levAux (g + 1) (x :: xs) (x :: xs) = 0
          simp only [levAux, if_pos rfl]
          exact ih g (by simp at hf ⊢; omega)

/-- The edit distance of a character list with itself is 0. -/
lemma levDist_self (xs : List Char) : levDist xs xs = 0 :=
  levAux_self xs _ (by omega)

/-- One progress update keeps level and time within their bounds, provided
the elapsed time is within the time bounds. -/
lemma applyProgress_bounds (c : PCard) (b : Bool) (t : ℚ)
    (h1 : MIN_LEVEL ≤ c.level) (h2 : c.level ≤ MAX_LEVEL)
    (h3 : MIN_TIME ≤ c.time) (h4 : c.time ≤ MAX_TIME)
    (h5 : MIN_TIME ≤ t) (h6 : t ≤ MAX_TIME) :
    MIN_LEVEL ≤ (applyProgress c b t).level ∧ (applyProgress c b t).level ≤ MAX_LEVEL ∧
    MIN_TIME ≤ (applyProgress c b t).time ∧ (applyProgress c b t).time ≤ MAX_TIME := by
  simp only [MIN_LEVEL, MAX_LEVEL] at h1 h2 ⊢
  cases b with
  | false =>
      refine ⟨?_, ?_, h3, h4⟩ <;> simp [applyProgress, MIN_LEVEL, MAX_LEVEL]
      omega
  | true =>
      refine ⟨?_, ?_, h5, h6⟩ <;> simp [applyProgress, MIN_LEVEL, MAX_LEVEL]

/-! ## Claim theorems -/

/-- C1 counterexample: the third seeded card of the vocabulary app has
level 2, so not every card of the initial card set is created with
level 1 (the recorded times are all 60). -/
theorem c1_initial_cards_counterexample :
    (INITIAL_CARDS.getD 2 { en := "", de := "", level := 0, time_blind := 0, time_typing := 0 }).level = 2 ∧
    ¬ (∀ c ∈ INITIAL_CARDS,
        c.level = 1 ∧ c.time_blind = DEFAULT_TIME ∧ c.time_typing = DEFAULT_TIME) := by
  decide

/-- C1 (amended): every card of the seeded vocabulary card set has both
recorded times equal to the default 60 seconds, and a level within the
ladder bounds [1,5] — but the levels are not all 1 (the set spans levels
1 through 5, two cards each). -/
theorem c1_initial_cards_default_times (c : Card) (hc : c ∈ INITIAL_CARDS) :
    c.time_blind = DEFAULT_TIME ∧ c.time_typing = DEFAULT_TIME ∧
    MIN_LEVEL ≤ c.level ∧ c.level ≤ MAX_LEVEL := by
  revert c
  decide

/-- C1 witness: the first seeded card instantiates the amended claim. -/
theorem c1_initial_cards_default_times_witness :
    ({ en := "Where", de := "Wo", level := 1, time_blind := 60, time_typing := 60 } : Card) ∈ INITIAL_CARDS ∧
    (({ en := "Where", de := "Wo", level := 1, time_blind := 60, time_typing := 60 } : Card).time_blind = DEFAULT_TIME ∧
      ({ en := "Where", de := "Wo", level := 1, time_blind := 60, time_typing := 60 } : Card).time_typing = DEFAULT_TIME ∧
      MIN_LEVEL ≤ ({ en := "Where", de := "Wo", level := 1, time_blind := 60, time_typing := 60 } : Card).level ∧
      ({ en := "Where", de := "Wo", level := 1, time_blind := 60, time_typing := 60 } : Card).level ≤ MAX_LEVEL) :=
  ⟨by decide,
    c1_initial_cards_default_times
      { en := "Where", de := "Wo", level := 1, time_blind := 60, time_typing := 60 }
      (by decide)⟩

/-- C2: the text evaluator is correct exactly when the Levenshtein
distance of the normalized submission and the normalized expected text is
at most the threshold 2, the recorded distance is exactly that distance
(0 on an exact normalized match), and on the spec's examples: Wo vs Wo is
correct with distance 0, Vo vs Wo is correct with distance 1, Xyz vs Wo is
incorrect with distance 3. -/
theorem c2_evaluate_text (expected submitted : List Char) :
    ((evaluateText expected submitted).correct = true ↔
      levDist (normalizeAnswer submitted) (normalizeAnswer expected) ≤ LEVENSHTEIN_THRESHOLD) ∧
    (evaluateText expected submitted).distance =
      levDist (normalizeAnswer submitted) (normalizeAnswer expected) ∧
    evaluateText "Wo".data "Wo".data = { correct := true, distance := 0 } ∧
    evaluateText "Wo".data "Vo".data = { correct := true, distance := 1 } ∧
    evaluateText "Wo".data "Xyz".data = { correct := false, distance := 3 } := by
  refine ⟨?_, ?_, by decide, by decide, by decide⟩ <;>
    by_cases h : normalizeAnswer submitted = normalizeAnswer expected <;>
      simp [evaluateText, h, levDist_self, LEVENSHTEIN_THRESHOLD]

/-- C2 witness: the evaluator characterization instantiated at the
near-miss example Vo vs Wo. -/
theorem c2_evaluate_text_witness :
    ((evaluateText "Wo".data "Vo".data).correct = true ↔
      levDist (normalizeAnswer "Vo".data) (normalizeAnswer "Wo".data) ≤ LEVENSHTEIN_THRESHOLD) ∧
    (evaluateText "Wo".data "Vo".data).distance =
      levDist (normalizeAnswer "Vo".data) (normalizeAnswer "Wo".data) ∧
    evaluateText "Wo".data "Wo".data = { correct := true, distance := 0 } ∧
    evaluateText "Wo".data "Vo".data = { correct := true, distance := 1 } ∧
    evaluateText "Wo".data "Xyz".data = { correct := false, distance := 3 } :=
  c2_evaluate_text "Wo".data "Vo".data

/-- C3 counterexample: starting from a card inside the bounds, a single
correct answer with an elapsed time of 61 seconds drives the recorded time
above the 60-second bound — the updater as specified stores the elapsed
time unclamped, so the invariant needs the elapsed times themselves to be
in bounds. -/
theorem c3_bounds_counterexample :
    MIN_LEVEL ≤ (⟨1, 60⟩ : PCard).level ∧ (⟨1, 60⟩ : PCard).level ≤ MAX_LEVEL ∧
    MIN_TIME ≤ (⟨1, 60⟩ : PCard).time ∧ (⟨1, 60⟩ : PCard).time ≤ MAX_TIME ∧
    ¬ ((applyAll ⟨1, 60⟩ [(true, 61)]).time ≤ MAX_TIME) := by
  decide

/-- C3 (amended): starting from a card with level in [1,5] and time in
[0.1,60], any finite sequence of progress updates whose elapsed times all
lie in [0.1,60] keeps the level in [1,5] and the time in [0.1,60]. -/
theorem c3_apply_all_bounds (c : PCard) (rs : List (Bool × ℚ))
    (h1 : MIN_LEVEL ≤ c.level) (h2 : c.level ≤ MAX_LEVEL)
    (h3 : MIN_TIME ≤ c.time) (h4 : c.time ≤ MAX_TIME)
    (hrs : ∀ r ∈ rs, MIN_TIME ≤ r.2 ∧ r.2 ≤ MAX_TIME) :
    MIN_LEVEL ≤ (applyAll c rs).level ∧ (applyAll c rs).level ≤ MAX_LEVEL ∧
    MIN_TIME ≤ (applyAll c rs).time ∧ (applyAll c rs).time ≤ MAX_TIME := by
  induction rs generalizing c with
  | nil => exact ⟨h1, h2, h3, h4⟩
  | cons r rs ih =>
      have hr := hrs r (List.mem_cons_self r rs)
      have step := applyProgress_bounds c r.1 r.2 h1 h2 h3 h4 hr.1 hr.2
      exact ih (applyProgress c r.1 r.2) step.1 step.2.1 step.2.2.1 step.2.2.2
        (fun q hq => hrs q (List.mem_cons_of_mem r hq))

/-- C3 witness: the amended invariant instantiated on a card at level 1
and a two-answer round with in-bounds elapsed times. -/
theorem c3_apply_all_bounds_witness :
    (MIN_LEVEL ≤ (⟨1, 60⟩ : PCard).level ∧ (⟨1, 60⟩ : PCard).level ≤ MAX_LEVEL ∧
      MIN_TIME ≤ (⟨1, 60⟩ : PCard).time ∧ (⟨1, 60⟩ : PCard).time ≤ MAX_TIME ∧
      (∀ r ∈ [((true : Bool), (1 : ℚ)), ((false : Bool), (59 : ℚ))],
        MIN_TIME ≤ r.2 ∧ r.2 ≤ MAX_TIME)) ∧
    (MIN_LEVEL ≤ (applyAll ⟨1, 60⟩ [(true, 1), (false, 59)]).level ∧
      (applyAll ⟨1, 60⟩ [(true, 1), (false, 59)]).level ≤ MAX_LEVEL ∧
      MIN_TIME ≤ (applyAll ⟨1, 60⟩ [(true, 1), (false, 59)]).time ∧
      (applyAll ⟨1, 60⟩ [(true, 1), (false, 59)]).time ≤ MAX_TIME) :=
  ⟨⟨by decide, by decide, by decide, by decide, by decide⟩,
    c3_apply_all_bounds ⟨1, 60⟩ [(true, 1), (false, 59)]
      (by decide) (by decide) (by decide) (by decide) (by decide)⟩

/-- C4: a correct answer raises the level by one, capped at 5, and stores
the elapsed time; an incorrect answer lowers the level by one, floored at
1, and leaves the time unchanged. -/
theorem c4_apply_progress (c : PCard) (t : ℚ) :
    applyProgress c true t = { level := min (c.level + 1) 5, time := t } ∧
    applyProgress c false t = { level := max (c.level - 1) 1, time := c.time } :=
  ⟨rfl, rfl⟩

/-- C5: a correct answer scores base + (6 - level) + speed bonus, where
the speed bonus of 5 is granted exactly when the elapsed time improves on
the previously recorded time; the spec's worked example scores
5 + (6-3) + 5 = 13; an incorrect answer scores exactly 0, never a negative
value. -/
theorem c5_score_answer (b l : Nat) (p e : ℚ) :
    scoreAnswer true b l p e =
      (b : Int) + (6 - (l : Int)) + (if e < p then SPEED_BONUS_POINTS else 0) ∧
    scoreAnswer false b l p e = 0 ∧
    (0 : Int) ≤ scoreAnswer false b l p e ∧
    scoreAnswer true 5 3 10 8 = 13 :=
  ⟨rfl, rfl, le_refl 0, by decide⟩

/-- C8: re-initializing an already-populated store without the force flag
returns the stored cards unchanged, and initialization is idempotent. -/
theorem c8_initialize_idempotent (cs : List Card) (s : Option (List Card)) :
    initializeCards (some cs) false = cs ∧
    initializeCards (some (initializeCards s false)) false = initializeCards s false :=
  ⟨rfl, rfl⟩

/-- C9: evaluating an answer against a card returns the card unchanged —
in particular its level and both recorded times — and the result is a
function of the card and the submission alone. -/
theorem c9_evaluate_pure (c : Card) (a : String) :
    (evaluateCard c a).2 = c ∧
    (evaluateCard c a).2.level = c.level ∧
    (evaluateCard c a).2.time_blind = c.time_blind ∧
    (evaluateCard c a).2.time_typing = c.time_typing ∧
    evaluateCard c a = (evaluateText c.de.data a.data, c) :=
  ⟨rfl, rfl, rfl, rfl, rfl⟩

/-- Removing the element drawn at a valid index and putting it back in
front is a permutation of the original candidate list. -/
lemma getD_cons_eraseIdx_perm {α : Type} (l : List α) (i : Nat) (d : α)
    (h : i < l.length) : (l.getD i d :: l.eraseIdx i).Perm l := by
  induction l generalizing i with
  | nil => simp at h
  | cons a t ih =>
      cases i with
      | zero => simp
      | succ j =>
          have hj : j < t.length := by simpa using h
          simp only [List.getD_cons_succ, List.eraseIdx_cons_succ]
          exact ((List.Perm.swap a (t.getD j d) (t.eraseIdx j)).trans
            (List.Perm.cons a (ih j hj)))

/-- The sampler draws exactly `min limit candidates` cards. -/
lemma drawCards_length (pick : List ℚ → Nat → Nat) (f : Focus) :
    ∀ (n : Nat) (l : List NumCard), (drawCards pick f n l).length = min n l.length := by
  intro n
  induction n with
  | zero => intro l; simp [drawCards]
  | succ n ih =>
      intro l
      cases l with
      | nil => simp [drawCards]
      | cons c cs =>
          have hi : pick ((c :: cs).map (focusWeight f)) n % (c :: cs).length <
              (c :: cs).length := Nat.mod_lt _ (by simp)
          have key : (drawCards pick f (n + 1) (c :: cs)).length =
              (drawCards pick f n ((c :: cs).eraseIdx
                (pick ((c :: cs).map (focusWeight f)) n % (c :: cs).length))).length + 1 := rfl
          rw [key, ih, List.length_eraseIdx, if_pos hi]
          simp only [List.length_cons]
          omega

/-- With enough fuel the sampler returns a permutation of the candidate
list. -/
lemma drawCards_perm (pick : List ℚ → Nat → Nat) (f : Focus) :
    ∀ (n : Nat) (l : List NumCard), l.length ≤ n → (drawCards pick f n l).Perm l := by
  intro n
  induction n with
  | zero =>
      intro l h
      have : l = [] := List.eq_nil_of_length_eq_zero (Nat.le_zero.mp h)
      subst this
      simp [drawCards]
  | succ n ih =>
      intro l h
      cases l with
      | nil => simp [drawCards]
      | cons c cs =>
          have hi : pick ((c :: cs).map (focusWeight f)) n % (c :: cs).length <
              (c :: cs).length := Nat.mod_lt _ (by simp)
          simp only [drawCards]
          refine List.Perm.trans (List.Perm.cons _ (ih _ ?_))
            (getD_cons_eraseIdx_perm (c :: cs) _ c hi)
          rw [List.length_eraseIdx, if_pos hi]
          simp only [List.length_cons] at h ⊢
          omega

/-- C7: the Selector never returns more than the round size of 10 cards;
when at most 10 cards survive filtering it returns exactly the surviving
cards (in drawn order, i.e. a permutation of them); and an empty filtered
pool yields the empty sequence, not an error — for every pool, topic
filter, focus strategy and draw oracle. -/
theorem c7_select_cards (pick : List ℚ → Nat → Nat) (f : Focus)
    (pool : List NumCard) (t : List Nat) :
    (selectCards pick f pool t).length ≤ ROUND_SIZE ∧
    ((filterByTopics pool t).length ≤ ROUND_SIZE →
      (selectCards pick f pool t).Perm (filterByTopics pool t)) ∧
    (filterByTopics pool t = [] → selectCards pick f pool t = []) := by
  refine ⟨?_, ?_, ?_⟩
  · unfold selectCards
    rw [drawCards_length]
    exact min_le_left _ _
  · intro h
    exact drawCards_perm pick f ROUND_SIZE _ h
  · intro h
    unfold selectCards
    rw [h]
    rfl

/-- C7 witness: the selector contract instantiated on the spec's
three-card pool with filter 6 (two survivors) and on the same pool with an
empty filter (no survivors). -/
theorem c7_select_cards_witness :
    (filterByTopics [⟨5, 6, 1, 60⟩, ⟨6, 9, 1, 60⟩, ⟨4, 7, 1, 60⟩] [6]).length ≤ ROUND_SIZE ∧
    (selectCards (fun _ _ => 0) Focus.weak
        [⟨5, 6, 1, 60⟩, ⟨6, 9, 1, 60⟩, ⟨4, 7, 1, 60⟩] [6]).Perm
      (filterByTopics [⟨5, 6, 1, 60⟩, ⟨6, 9, 1, 60⟩, ⟨4, 7, 1, 60⟩] [6]) ∧
    (filterByTopics [⟨5, 6, 1, 60⟩, ⟨6, 9, 1, 60⟩, ⟨4, 7, 1, 60⟩] [] = [] ∧
      selectCards (fun _ _ => 0) Focus.weak
        [⟨5, 6, 1, 60⟩, ⟨6, 9, 1, 60⟩, ⟨4, 7, 1, 60⟩] [] = []) :=
  ⟨by decide,
    (c7_select_cards (fun _ _ => 0) Focus.weak
      [⟨5, 6, 1, 60⟩, ⟨6, 9, 1, 60⟩, ⟨4, 7, 1, 60⟩] [6]).2.1 (by decide),
    by decide,
    (c7_select_cards (fun _ _ => 0) Focus.weak
      [⟨5, 6, 1, 60⟩, ⟨6, 9, 1, 60⟩, ⟨4, 7, 1, 60⟩] []).2.2 (by decide)⟩

/-- Decimal digit characters are not the letter x. -/
lemma digitChar_ne_x (d : Nat) (hd : d < 10) : digitChar d ≠ 'x' := by
  interval_cases d <;> decide

/-- Parsing a decimal digit character recovers its value. -/
lemma charDigit_digitChar (d : Nat) (hd : d < 10) : charDigit (digitChar d) = some d := by
  interval_cases d <;> decide

/-- Decimal numerals contain no letter x. -/
lemma natReprAux_no_x : ∀ (f n : Nat), 'x' ∉ natReprAux f n := by
  intro f
  induction f with
  | zero => intro n; simp [natReprAux]
  | succ f ih =>
      intro n
      simp only [natReprAux]
      split
      · intro hmem
        exact digitChar_ne_x n (by assumption) (List.mem_singleton.mp hmem).symm
      · rw [List.mem_append]
        rintro (h | h)
        · exact ih (n / 10) h
        · exact digitChar_ne_x (n % 10) (Nat.mod_lt _ (by norm_num))
            (List.mem_singleton.mp h).symm

/-- The numeral of a natural number contains no letter x. -/
lemma natRepr_no_x (n : Nat) : 'x' ∉ natRepr n := natReprAux_no_x (n + 1) n

/-- The accumulating decimal parser distributes over concatenation. -/
lemma parseNatAux_append (acc : Nat) (xs ys : List Char) :
    parseNatAux acc (xs ++ ys) = (parseNatAux acc xs).bind (fun m => parseNatAux m ys) := by
  induction xs generalizing acc with
  | nil => rfl
  | cons c cs ih =>
      simp only [List.cons_append, parseNatAux]
      cases charDigit c with
      | none => rfl
      | some d => exact ih (10 * acc + d)

/-- Parsing the fuel-indexed numeral of `n` with accumulator `acc` yields
`acc` shifted by the numeral's width, plus `n`, whenever the fuel covers
all digits of `n`. -/
lemma parseNatAux_natReprAux :
    ∀ (f n acc : Nat), n < 10 ^ f →
      parseNatAux acc (natReprAux f n) =
        some (acc * 10 ^ (natReprAux f n).length + n) := by
  intro f
  induction f with
  | zero =>
      intro n acc h
      have hn : n = 0 := by simpa using Nat.lt_one_iff.mp (by simpa using h)
      subst hn
      simp [natReprAux, parseNatAux]
  | succ f ih =>
      intro n acc h
      by_cases hn : n < 10
      · simp only [natReprAux, if_pos hn, parseNatAux, charDigit_digitChar n hn,
          List.length_singleton]
        congr 1
        ring
      · simp only [natReprAux, if_neg hn]
        rw [parseNatAux_append]
        have hdiv : n / 10 < 10 ^ f := by
          rw [Nat.div_lt_iff_lt_mul (by norm_num)]
          rwa [← pow_succ]
        rw [ih (n / 10) acc hdiv]
        have hm : n % 10 < 10 := Nat.mod_lt _ (by norm_num)
        simp only [Option.some_bind, parseNatAux, charDigit_digitChar (n % 10) hm,
          List.length_append, List.length_singleton]
        congr 1
        have hdm : 10 * (n / 10) + n % 10 = n := Nat.div_add_mod n 10
        calc 10 * (acc * 10 ^ (natReprAux f (n / 10)).length + n / 10) + n % 10
            = acc * (10 ^ (natReprAux f (n / 10)).length * 10) +
                (10 * (n / 10) + n % 10) := by ring
          _ = acc * 10 ^ ((natReprAux f (n / 10)).length + 1) + n := by
                rw [hdm, pow_succ]

/-- The embedding of JS `Number()` inverts the numeral of every natural
number. -/
lemma jsNumber_natRepr (n : Nat) : jsNumber (natRepr n) = some n := by
  have h : n < 10 ^ (n + 1) :=
    lt_of_lt_of_le (Nat.lt_pow_self (by norm_num) n)
      (Nat.pow_le_pow_right (by norm_num) (Nat.le_succ n))
  unfold jsNumber natRepr
  rw [parseNatAux_natReprAux (n + 1) n 0 h]
  simp

/-- Splitting a list free of the separator yields the list itself as the
only part. -/
lemma splitOnChar_of_not_mem (sep : Char) :
    ∀ (l : List Char), sep ∉ l → splitOnChar sep l = [l] := by
  intro l
  induction l with
  | nil => intro _; rfl
  | cons c cs ih =>
      intro h
      have hc : ¬ c = sep := by
        intro e
        exact h (by simp [e])
      have hcs : sep ∉ cs := fun m => h (List.mem_cons_of_mem c m)
      simp only [splitOnChar, ih hcs, if_neg hc]

/-- Splitting around the first separator occurrence peels off the
separator-free prefix. -/
lemma splitOnChar_append (sep : Char) (B : List Char) :
    ∀ (A : List Char), sep ∉ A →
      splitOnChar sep (A ++ sep :: B) = A :: splitOnChar sep B := by
  intro A
  induction A with
  | nil => intro _; simp [splitOnChar]
  | cons a A ih =>
      intro hA
      have ha : ¬ a = sep := by
        intro e
        exact hA (by simp [e])
      have hA2 : sep ∉ A := fun m => hA (List.mem_cons_of_mem a m)
      simp only [List.cons_append, splitOnChar, List.append_eq, ih hA2, if_neg ha]

/-- Replacing the first occurrence of a character past an occurrence-free
prefix. -/
lemma replaceFirst_append (a b : Char) (B : List Char) :
    ∀ (A : List Char), a ∉ A →
      replaceFirst a b (A ++ a :: B) = A ++ b :: B := by
  intro A
  induction A with
  | nil => intro _; simp [replaceFirst]
  | cons c A ih =>
      intro hA
      have hc : ¬ c = a := by
        intro e
        exact hA (by simp [e])
      have hA2 : a ∉ A := fun m => hA (List.mem_cons_of_mem c m)
      simp only [List.cons_append, replaceFirst, List.append_eq, if_neg hc, ih hA2]

/-- C10: for a question XxY with numeric operands, when the selection is a
one-element number array whose number equals one of the operands, the
formatter puts the selected number last — the other operand, the
multiplication sign, then the selected number (with the first operand
preferred as the match when both are equal); for a multi-element array,
the squared sentinel, an undefined selection, or a non-matching single
number, it returns the question with its x replaced by the multiplication
sign. -/
theorem c10_format_display_question (X Y n : Nat) (l : List Nat) (hl : l.length ≠ 1) :
    (formatDisplayQuestion (natRepr X ++ 'x' :: natRepr Y) (some (Selection.nums [n])) =
      if n = X then natRepr Y ++ '×' :: natRepr n
      else if n = Y then natRepr X ++ '×' :: natRepr n
      else natRepr X ++ '×' :: natRepr Y) ∧
    formatDisplayQuestion (natRepr X ++ 'x' :: natRepr Y) (some (Selection.nums l)) =
      natRepr X ++ '×' :: natRepr Y ∧
    formatDisplayQuestion (natRepr X ++ 'x' :: natRepr Y) (some Selection.squared) =
      natRepr X ++ '×' :: natRepr Y ∧
    formatDisplayQuestion (natRepr X ++ 'x' :: natRepr Y) none =
      natRepr X ++ '×' :: natRepr Y := by
  have hq : replaceFirst 'x' '×' (natRepr X ++ 'x' :: natRepr Y) =
      natRepr X ++ '×' :: natRepr Y :=
    replaceFirst_append 'x' '×' (natRepr Y) (natRepr X) (natRepr_no_x X)
  have hsplit : splitOnChar 'x' (natRepr X ++ 'x' :: natRepr Y) = [natRepr X, natRepr Y] := by
    rw [splitOnChar_append 'x' (natRepr Y) (natRepr X) (natRepr_no_x X),
      splitOnChar_of_not_mem 'x' (natRepr Y) (natRepr_no_x Y)]
  refine ⟨?_, ?_, hq, hq⟩
  · simp only [formatDisplayQuestion, hsplit, List.map_cons, List.map_nil,
      jsNumber_natRepr, List.getD_cons_zero, List.getD_cons_succ]
    by_cases hX : n = X
    · subst hX
      simp [optNumRepr]
    · by_cases hY : n = Y
      · subst hY
        simp [Ne.symm hX, hX, optNumRepr]
      · simp [Ne.symm hX, Ne.symm hY, hX, hY, hq]
  · rcases l with _ | ⟨a, _ | ⟨b, t⟩⟩
    · exact hq
    · exact absurd rfl hl
    · exact hq

/-- C10 witness: the formatter claim instantiated on the test suite's
question 3x16 with selections [3] and [3, 4, 5]. -/
theorem c10_format_display_question_witness :
    ([3, 4, 5] : List Nat).length ≠ 1 ∧
    ((formatDisplayQuestion (natRepr 3 ++ 'x' :: natRepr 16) (some (Selection.nums [3])) =
        if 3 = 3 then natRepr 16 ++ '×' :: natRepr 3
        else if 3 = 16 then natRepr 3 ++ '×' :: natRepr 3
        else natRepr 3 ++ '×' :: natRepr 16) ∧
      formatDisplayQuestion (natRepr 3 ++ 'x' :: natRepr 16) (some (Selection.nums [3, 4, 5])) =
        natRepr 3 ++ '×' :: natRepr 16 ∧
      formatDisplayQuestion (natRepr 3 ++ 'x' :: natRepr 16) (some Selection.squared) =
        natRepr 3 ++ '×' :: natRepr 16 ∧
      formatDisplayQuestion (natRepr 3 ++ 'x' :: natRepr 16) none =
        natRepr 3 ++ '×' :: natRepr 16) :=
  ⟨by decide, c10_format_display_question 3 16 3 [3, 4, 5] (by decide)⟩

/-- C6: the Selector's filtering step retains exactly the cards whose
first or second operand is a member of the explicit topic set, and
filtering the pool (5,6), (6,9), (4,7) with the set containing 6 returns
exactly (5,6) and (6,9). -/
theorem c6_filter_by_topics :
    (∀ (pool : List NumCard) (t : List Nat) (c : NumCard),
      c ∈ filterByTopics pool t ↔ c ∈ pool ∧ (c.x ∈ t ∨ c.y ∈ t)) ∧
    filterByTopics [⟨5, 6, 1, 60⟩, ⟨6, 9, 1, 60⟩, ⟨4, 7, 1, 60⟩] [6] =
      [⟨5, 6, 1, 60⟩, ⟨6, 9, 1, 60⟩] := by
  constructor
  · intro pool t c
    simp [filterByTopics, List.mem_filter]
  · decide
